import Mathlib

/-!
Verification development for the SSH network layer of a component-registry
client (`src/scope/network/ssh/ssh.ts`) and its `Remote` wrapper
(`src/remotes/remote.ts`).

The TypeScript source is shallowly embedded: mutable stream state becomes an
explicit state record folded over an event list, JavaScript string operations
(`replace` with a string pattern replaces only the first occurrence) are
reproduced on `List Char`, and JavaScript truthiness of optional string fields
(`x || d` falls back on both `undefined` and the empty string) is made
explicit.  External collaborators (the envelope codec, `JSON.parse`,
`ramda`'s `once`) enter as parameters or as their documented semantics.
-/

namespace BitSSH

/-- Models JavaScript `x || d` where `x` is a string field that may be
`undefined`: the fallback `d` is used when the field is missing or is the
empty string (both are falsy in JavaScript). -/
def jsOr (v : Option String) (d : String) : String :=
  match v with
  | some s => if s = "" then d else s
  | none => d

/-- Tests whether `pat` is a leading segment of the character list. -/
def leadsWith : List Char → List Char → Bool
  | [], _ => true
  | _ :: _, [] => false
  | p :: ps, c :: cs => p = c && leadsWith ps cs

/-- Removes the first occurrence of `pat` from the character list; if `pat`
does not occur the list is unchanged.  This is JavaScript
`str.replace(pat, '')` (string patterns replace only the first match). -/
def dropFirstMatch (pat : List Char) : List Char → List Char
  | [] => []
  | c :: rest =>
    if leadsWith pat (c :: rest) then List.drop pat.length (c :: rest)
    else c :: dropFirstMatch pat rest

/-- JavaScript `s.replace(pat, '')` for a string pattern: removes the first
occurrence of `pat` from `s`. -/
def removeFirst (s pat : String) : String :=
  String.mk (dropFirstMatch pat.toList s.toList)

/-- Embeds `clean` from `ssh.ts`: `str.replace('\n', '')`, which removes the
first newline character anywhere in the string (not trailing newlines). -/
def clean (s : String) : String :=
  removeFirst s "\n"

/-- Structured error payload extracted from a successfully decoded stderr
envelope.  Every field is optional: the remote sends only the fields relevant
to the error kind. -/
structure ErrorPayload where
  message : Option String
  id : Option String
  name : Option String
  idsAndVersions : Option (List String)
  sourceScope : Option String
  destinationScope : Option String
deriving DecidableEq

/-- Typed domain errors produced by the SSH layer.  `customError` is the
error class the source constructs for exit code 132 (the specification calls
this kind `GenericRemoteError`).  `unexpectedNetworkError` carries an
`Option String` because the source passes `parsedError.message` through
unchanged, and that field may be `undefined`. -/
inductive DomainError where
  | unexpectedNetworkError (message : Option String)
  | componentNotFound (idText : String)
  | permissionDenied (scopePath : String)
  | remoteScopeNotFound (nameText : String)
  | mergeConflictOnRemote (idsAndVersions : List String)
  | customError (message : String)
  | oldClientVersion (message : String)
  | exportAnotherOwnerPrivate (message sourceScope destinationScope : String)
  | generalError (message : String)
  | authenticationFailed (message : String)
deriving DecidableEq

/-- Embeds `SSH.errorHandler` from `ssh.ts`.  The attempt to decode the raw
stderr text `err` through the external envelope codec is abstracted into the
parameter `decoded`: `some p` when `this._unpack(err, false)` succeeded, the
version check passed and the payload was a (truthy) object, `none` when
decoding failed (the source logs and falls through, it never raises here).
Each branch mirrors the `switch (code)` statement:
accesses like `(parsedError && parsedError.id) || err` and ternaries guarded
by field truthiness become `jsOr`, while the `default` branch is
`parsedError ? parsedError.message : err`, which does not fall back to the
raw text when the decoded payload lacks a `message` field. -/
def errorHandler (host path : String) (code : Nat) (err : String)
    (decoded : Option ErrorPayload) : DomainError :=
  if code = 127 then
    .componentNotFound (jsOr (decoded.bind ErrorPayload.id) err)
  else if code = 128 then
    .permissionDenied (host ++ ":" ++ path)
  else if code = 129 then
    .remoteScopeNotFound (jsOr (decoded.bind ErrorPayload.name) err)
  else if code = 130 then
    .permissionDenied (host ++ ":" ++ path)
  else if code = 131 then
    .mergeConflictOnRemote ((decoded.bind ErrorPayload.idsAndVersions).getD [])
  else if code = 132 then
    .customError (jsOr (decoded.bind ErrorPayload.message) err)
  else if code = 133 then
    .oldClientVersion (jsOr (decoded.bind ErrorPayload.message) err)
  else if code = 134 then
    .exportAnotherOwnerPrivate (jsOr (decoded.bind ErrorPayload.message) err)
      (jsOr (decoded.bind ErrorPayload.sourceScope) "unknown")
      (jsOr (decoded.bind ErrorPayload.destinationScope) "unknown")
  else
    .unexpectedNetworkError
      (match decoded with
       | some p => p.message
       | none => some err)

/-- Formalizes the table of claim C1 exactly as the claim states it: every
row, including the default bucket, carries the named payload field with the
raw stderr text as fallback.  This differs from `errorHandler` only in the
default bucket, where the source forwards `parsedError.message` without a
fallback whenever decoding succeeded. -/
def errorHandlerClaimTable (host path : String) (code : Nat) (err : String)
    (decoded : Option ErrorPayload) : DomainError :=
  if code = 127 then
    .componentNotFound (jsOr (decoded.bind ErrorPayload.id) err)
  else if code = 128 then
    .permissionDenied (host ++ ":" ++ path)
  else if code = 129 then
    .remoteScopeNotFound (jsOr (decoded.bind ErrorPayload.name) err)
  else if code = 130 then
    .permissionDenied (host ++ ":" ++ path)
  else if code = 131 then
    .mergeConflictOnRemote ((decoded.bind ErrorPayload.idsAndVersions).getD [])
  else if code = 132 then
    .customError (jsOr (decoded.bind ErrorPayload.message) err)
  else if code = 133 then
    .oldClientVersion (jsOr (decoded.bind ErrorPayload.message) err)
  else if code = 134 then
    .exportAnotherOwnerPrivate (jsOr (decoded.bind ErrorPayload.message) err)
      (jsOr (decoded.bind ErrorPayload.sourceScope) "unknown")
      (jsOr (decoded.bind ErrorPayload.destinationScope) "unknown")
  else
    .unexpectedNetworkError (some (jsOr (decoded.bind ErrorPayload.message) err))

/-- Embeds `Remote` from `remote.ts`: `primary`, `host` and `name` fields. -/
structure Remote where
  primary : Bool
  host : String
  name : String
deriving DecidableEq

/-- Embeds the `Remote` constructor: `constructor(host, name, primary)` sets
`this.name = name || ''` and `this.host = host`. -/
def Remote.build (host : String) (name : Option String) (primary : Bool) : Remote :=
  { primary := primary, host := host, name := name.getD "" }

/-- Embeds `isPrimary` from `remote.ts`: `alias.includes('!')`. -/
def remoteIsPrimary (a : String) : Bool :=
  a.contains '!'

/-- Modelled from the spec: `cleanBang` lives in `src/utils`, which is not
part of the provided sources; per the claim's wording it removes the leading
`!` primary marker from a remote alias. -/
def cleanBang (name : String) : String :=
  if name.startsWith "!" then name.drop 1 else name

/-- Embeds `Remote.load(name, host)`: computes `primary`, strips the bang
from `name` when primary, then calls `new Remote(name, host, primary)` —
passing `name` in the constructor's `host` position and `host` in the
constructor's `name` position. -/
def Remote.load (name host : String) : Remote :=
  let primary := remoteIsPrimary name
  let cleaned := if primary then cleanBang name else name
  Remote.build cleaned (some host) primary

/-- Models the outcome of one connection strategy as observed by the
`for` loop of `SSH.connect`: the strategy either resolves with a live
connection (truthy result), resolves with a falsy value (the loop silently
moves on), throws `AuthenticationStrategyFailed` (recoverable, its message is
collected), or throws any other error (fatal).  Connections are abstracted to
numeric tokens. -/
inductive StrategyOutcome where
  | success (conn : Nat)
  | nullResult
  | recoverable (msg : String)
  | fatal (e : DomainError)
deriving DecidableEq

/-- Result of `SSH.connect`: a live connection, an aggregated
`AuthenticationFailed` rejection, or a propagated unexpected error. -/
inductive ConnectResult where
  | connected (conn : Nat)
  | authFailed (msg : String)
  | raised (e : DomainError)
deriving DecidableEq

/-- Header line unshifted onto the failure list in `SSH.connect`. -/
def strategiesHeader : String := "The following strategies were failed"

/-- Separator used by `strategiesFailures.join` in `SSH.connect`. -/
def strategiesSeparator : String := "\n[-] "

/-- Embeds the strategy loop of `SSH.connect`: walk the ordered outcomes,
return on the first truthy result, collect recoverable failure messages,
rethrow any other error, and after exhausting the list reject with
`AuthenticationFailed` on the joined failure texts. -/
def connectFrom : List StrategyOutcome → List String → ConnectResult
  | [], fails =>
    .authFailed (String.intercalate strategiesSeparator (strategiesHeader :: fails))
  | .success c :: _, _ => .connected c
  | .nullResult :: rest, fails => connectFrom rest fails
  | .recoverable m :: rest, fails => connectFrom rest (fails ++ [m])
  | .fatal e :: _, _ => .raised e

/-- Embeds `SSH.connect` starting from an empty failure list. -/
def connect (outcomes : List StrategyOutcome) : ConnectResult :=
  connectFrom outcomes []

/-- Number of strategies the `SSH.connect` loop actually attempts on a given
outcome list: every strategy up to and including the first one that halts the
loop (success or fatal error). -/
def attemptedCount : List StrategyOutcome → Nat
  | [] => 0
  | .success _ :: _ => 1
  | .nullResult :: rest => 1 + attemptedCount rest
  | .recoverable _ :: rest => 1 + attemptedCount rest
  | .fatal _ :: _ => 1

/-- An outcome that lets the strategy loop continue to the next entry. -/
def isNonHalting : StrategyOutcome → Bool
  | .nullResult => true
  | .recoverable _ => true
  | _ => false

/-- The result at which an outcome halts the strategy loop, if it does. -/
def haltResult : StrategyOutcome → Option ConnectResult
  | .success c => some (.connected c)
  | .fatal e => some (.raised e)
  | _ => none

/-- The ssh2 transport message recognized as a recoverable authentication
failure in `_connectWithConfig`. -/
def authFailedTransportMessage : String := "All configured authentication methods failed"

/-- The ssh2 transport message recognized as a possibly-missing passphrase in
`_connectWithConfig`. -/
def passphraseMissingMessage : String := "Cannot parse privateKey: Unsupported key format"

/-- A raw transport (ssh2) handshake error: message, optional error code,
and the host/port the transport reports. -/
structure TransportError where
  message : String
  code : Option String
  host : String
  port : Nat
deriving DecidableEq

/-- How `_connectWithConfig` disposes of a failed handshake: rethrow as a
recoverable `AuthenticationStrategyFailed` with some hint text, or throw a
fatal error that aborts negotiation. -/
inductive HandshakeFailure where
  | recoverable (msg : String)
  | fatal (e : DomainError)
deriving DecidableEq

/-- Message of the `GeneralError` built for an `ENOTFOUND` handshake error. -/
def enotfoundMessage (host : String) (port : Nat) (message : String) : String :=
  "unable to find the SSH server. host: " ++ host ++ ", port: " ++ toString port
    ++ ". Original error message: " ++ message

/-- Base hint for the unsupported-key-format handshake error. -/
def passphraseBaseHint : String :=
  "error connecting with private ssh key. in case passphrase is used, use ssh-agent."

/-- Extra remediation appended on macOS Mojave 18.2.0. -/
def passphraseMojaveNote : String :=
  " for macOS Mojave users, use `-m PEM` for `ssh-keygen` command to generate a valid SSH key"

/-- Embeds the catch block of `SSH._connectWithConfig`: the generic
all-methods-failed transport message is recoverable with the strategy's hint;
an `ENOTFOUND` code throws a fatal `GeneralError`; the unsupported-key-format
message is recoverable with an actionable hint (plus a note on Mojave); any
other transport error is recoverable with the hint plus the quoted message. -/
def classifyHandshakeError (authFailedMsg : String) (macMojave : Bool)
    (e : TransportError) : HandshakeFailure :=
  if e.message = authFailedTransportMessage then .recoverable authFailedMsg
  else if e.code = some "ENOTFOUND" then
    .fatal (.generalError (enotfoundMessage e.host e.port e.message))
  else if e.message = passphraseMissingMessage then
    .recoverable
      (if macMojave then passphraseBaseHint ++ passphraseMojaveNote else passphraseBaseHint)
  else .recoverable (authFailedMsg ++ " due to an error \"" ++ e.message ++ "\"")

/-- State of ramda's `once` wrapper around the version-compatibility
function (`checkVersionCompatibility = R.once(checkVersionCompatibilityFunction)`):
whether the wrapped function has ever been invoked, plus the version strings
that actually triggered a check.  `R.once(fn)` invokes `fn` on the first call
only; every later call returns the cached result without invoking `fn`,
regardless of the argument. -/
structure OnceState where
  called : Bool
  checked : List String
deriving DecidableEq

/-- One call of the `R.once`-wrapped compatibility check with version `v`. -/
def onceCall (st : OnceState) (v : String) : OnceState :=
  if st.called then st else { called := true, checked := st.checked ++ [v] }

/-- Versions that actually get compatibility-checked across a sequence of
successful envelope decodes in one process lifetime. -/
def checkedVersions (vs : List String) : List String :=
  (vs.foldl onceCall { called := false, checked := [] }).checked

/-- Formalizes claim C6's wording: the first occurrence of each distinct
version string triggers a check, repeats of an already-checked value do
not. -/
def distinctFirstOccurrences (seen : List String) : List String → List String
  | [] => []
  | v :: rest =>
    if v ∈ seen then distinctFirstOccurrences seen rest
    else v :: distinctFirstOccurrences (v :: seen) rest

/-- Events delivered to the callbacks `SSH.exec` installs on one execution
stream: a stdout chunk, a stderr chunk, the process-exit signal (whose code
may be absent), the stream-close signal, and the firing of the 2-second
grace timer that the exit handler schedules via `setTimeout`. -/
inductive StreamEvent where
  | stdoutData (s : String)
  | stderrData (s : String)
  | exitSignal (code : Option Nat)
  | closeSignal (code : Option Nat)
  | graceTimer
deriving DecidableEq

/-- How the promise of `SSH.exec` settles.  A rejection records the exit code
and the stderr text handed to `this.errorHandler(code, err)`. -/
inductive Settlement where
  | resolved (s : String)
  | rejected (code : Nat) (stderrText : Option String)
deriving DecidableEq

/-- Mutable state of one `SSH.exec` invocation: the stdout accumulator `res`,
the stderr slot `err` (starts out undefined), the code captured by the exit
handler whose delayed settlement is still pending, and the write-once promise
settlement. -/
structure ExecState where
  res : String
  err : Option String
  pendingExit : Option (Option Nat)
  settled : Option Settlement
deriving DecidableEq

/-- State when the execution stream opens. -/
def initExecState : ExecState :=
  { res := "", err := none, pendingExit := none, settled := none }

/-- Embeds `code && code !== 0 ? reject(errorHandler(code, err)) : resolve(clean(res))`:
an absent or zero code resolves with the cleaned stdout, a non-zero code
rejects with the code and current stderr text. -/
def settleValue (code : Option Nat) (res : String) (err : Option String) : Settlement :=
  match code with
  | some c => if c ≠ 0 then .rejected c err else .resolved (clean res)
  | none => .resolved (clean res)

/-- A JavaScript promise settles at most once: `resolve`/`reject` on an
already-settled promise is a no-op. -/
def settleOnce (st : ExecState) (v : Settlement) : ExecState :=
  if st.settled.isSome then st else { st with settled := some v }

/-- Embeds the stream callbacks of `SSH.exec` for verb `verb` and payload
`payload`: `data` appends to `res`; `stderr.data` assigns `err`; `exit`
captures the code and schedules the delayed settlement; the grace timer runs
`promiseExit` on the state current at fire time; `close` first (for `_put`
only) strips the first echo of the payload from `res`, then settles
immediately. -/
def streamStep (verb payload : String) (st : ExecState) : StreamEvent → ExecState
  | .stdoutData s => { st with res := st.res ++ s }
  | .stderrData s => { st with err := some s }
  | .exitSignal code => { st with pendingExit := some code }
  | .graceTimer =>
    match st.pendingExit with
    | none => st
    | some code => settleOnce st (settleValue code st.res st.err)
  | .closeSignal code =>
    let stNow := if verb = "_put" then { st with res := removeFirst st.res payload } else st
    settleOnce stNow (settleValue code stNow.res stNow.err)

/-- Folds a list of stream events over an execution state. -/
def runFrom (verb payload : String) (st : ExecState) (events : List StreamEvent) : ExecState :=
  events.foldl (streamStep verb payload) st

/-- One `SSH.exec` invocation observed as the event list it receives. -/
def runExec (verb payload : String) (events : List StreamEvent) : ExecState :=
  runFrom verb payload initExecState events

/-- The last stderr chunk delivered, if any. -/
def lastStderr (events : List StreamEvent) : Option String :=
  events.foldl
    (fun a e => match e with | .stderrData s => some s | _ => a) none

/-- Concatenation, in arrival order, of every stdout chunk delivered. -/
def stdoutConcat (events : List StreamEvent) : String :=
  events.foldl
    (fun a e => match e with | .stdoutData s => a ++ s | _ => a) ""

/-- Formalizes claim C8's wording: the concatenation, in arrival order, of
every stderr chunk delivered. -/
def stderrConcatClaim (events : List StreamEvent) : String :=
  events.foldl
    (fun a e => match e with | .stderrData s => a ++ s | _ => a) ""

/-- Formalizes claim C7's wording: trims trailing newline characters. -/
def trimTrailingNewlines (s : String) : String :=
  String.mk ((s.toList.reverse.dropWhile (fun c => c = '\n')).reverse)

/-- Formalizes claim C7's wording for the value resolved on a zero exit code:
the accumulated stdout, with the payload echo removed for the bulk-upload
verb, and trailing newlines trimmed. -/
def resolvedClaimValue (verb payload stdout : String) : String :=
  trimTrailingNewlines (if verb = "_put" then removeFirst stdout payload else stdout)

/-- Result of `JSON.parse` on a fetch response, abstracted to the two fields
`SSH.fetch` destructures: `headers.version` and `payload`. -/
structure FetchParsed where
  headersVersion : String
  payload : String
deriving DecidableEq

/-- Outcome of the fetch response handling. -/
inductive FetchOutcome where
  | ok (payload : String)
  | invalidResponse (raw : String)
deriving DecidableEq

/-- Embeds `parseResponse` and its use inside `SSH.fetch`: the raw response
text is decoded directly by `JSON.parse` (not through the packed-envelope
codec `unpackCommand` that `_unpack` applies for every other verb); the
parameter `parsed` is that plain decode's result.  A parse failure throws
`SSHInvalidResponse(str)` carrying the raw text verbatim; on success the
plain `payload` field is handed on. -/
def fetchHandle (str : String) (parsed : Option FetchParsed) : FetchOutcome :=
  match parsed with
  | none => .invalidResponse str
  | some r => .ok r.payload

/-- Claim C1 (corrected): as amended, the error translator follows the fixed
exit-code table — 127 gives `componentNotFound` with `payload.id` falling
back to the raw text, 128 and 130 give `permissionDenied` with
`host ++ ":" ++ path`, 129 gives `remoteScopeNotFound` with `payload.name`
else raw text, 131 gives `mergeConflictOnRemote` with
`payload.idsAndVersions` else the empty list, 132 gives `customError`
(the spec's `GenericRemoteError`) with `payload.message` else raw text, 133
gives `oldClientVersion` with `payload.message` else raw text, 134 gives
`exportAnotherOwnerPrivate` with `payload.message` else raw text and the two
scopes defaulting to "unknown" — but every other code gives
`unexpectedNetworkError` carrying `payload.message` as-is (possibly absent)
whenever the stderr decoded, falling back to the raw text only when decoding
failed; a fallback also fires when a decoded field is the empty string
(JavaScript falsiness). -/
theorem c1_error_table (host path err : String) (d : Option ErrorPayload)
    (c : Nat) (_hc : c ≠ 0)
    (hrow : c ∉ ([127, 128, 129, 130, 131, 132, 133, 134] : List Nat)) :
    errorHandler host path 127 err d
      = .componentNotFound (jsOr (d.bind ErrorPayload.id) err)
    ∧ errorHandler host path 128 err d = .permissionDenied (host ++ ":" ++ path)
    ∧ errorHandler host path 129 err d
      = .remoteScopeNotFound (jsOr (d.bind ErrorPayload.name) err)
    ∧ errorHandler host path 130 err d = .permissionDenied (host ++ ":" ++ path)
    ∧ errorHandler host path 131 err d
      = .mergeConflictOnRemote ((d.bind ErrorPayload.idsAndVersions).getD [])
    ∧ errorHandler host path 132 err d
      = .customError (jsOr (d.bind ErrorPayload.message) err)
    ∧ errorHandler host path 133 err d
      = .oldClientVersion (jsOr (d.bind ErrorPayload.message) err)
    ∧ errorHandler host path 134 err d
      = .exportAnotherOwnerPrivate (jsOr (d.bind ErrorPayload.message) err)
          (jsOr (d.bind ErrorPayload.sourceScope) "unknown")
          (jsOr (d.bind ErrorPayload.destinationScope) "unknown")
    ∧ errorHandler host path c err d
      = .unexpectedNetworkError
          (match d with
           | some p => p.message
           | none => some err) := by
  simp only [List.mem_cons, List.not_mem_nil, or_false, not_or] at hrow
  obtain ⟨h127, h128, h129, h130, h131, h132, h133, h134⟩ := hrow
  refine ⟨rfl, rfl, rfl, rfl, rfl, rfl, rfl, rfl, ?_⟩
  simp [errorHandler, h127, h128, h129, h130, h131, h132, h133, h134]

/-- Witness for C1: exit code 1 with raw stderr "boom" and no decodable
payload yields `unexpectedNetworkError (some "boom")`. -/
theorem c1_error_table_witness :
    errorHandler "my.host" "my/path" 1 "boom" none
      = .unexpectedNetworkError (some "boom") := by
  have h := c1_error_table "my.host" "my/path" "boom" none 1 (by decide) (by decide)
  exact h.2.2.2.2.2.2.2.2

/-- Counterexample for C1 as stated: at exit code 1 with a decoded payload
that has no `message` field, the source returns
`unexpectedNetworkError` carrying no message at all, while the claim's table
demands a fallback to the raw stderr text. -/
theorem c1_counterexample :
    errorHandler "h" "p" 1 "boom" (some ⟨none, none, none, none, none, none⟩)
      ≠ errorHandlerClaimTable "h" "p" 1 "boom"
          (some ⟨none, none, none, none, none, none⟩) := by
  decide

/-- Claim C10: `Remote.load(name, host)` hands its arguments to the `Remote`
constructor in swapped positions — the returned remote's `host` field is the
given `name` (with the leading `!` primary marker removed when present) and
its `name` field is the given `host`. -/
theorem c10_remote_load_swaps (name host : String) :
    (Remote.load name host).host
      = (if remoteIsPrimary name then cleanBang name else name)
    ∧ (Remote.load name host).name = host := by
  constructor
  · rfl
  · rfl

/-- Helper: if every outcome before index `i` lets the loop continue and the
outcome at `i` halts it, the loop returns that halt result after attempting
exactly `i + 1` strategies, whatever failures are already collected. -/
theorem connectFrom_halts :
    ∀ (outcomes : List StrategyOutcome) (acc : List String) (i : Nat)
      (o : StrategyOutcome) (r : ConnectResult),
      outcomes[i]? = some o → haltResult o = some r →
      (outcomes.take i).all isNonHalting = true →
      connectFrom outcomes acc = r ∧ attemptedCount outcomes = i + 1 := by
  intro outcomes
  induction outcomes with
  | nil => intro acc i o r hget _ _; simp at hget
  | cons o0 rest ih =>
    intro acc i o r hget hhalt hpre
    cases i with
    | zero =>
      simp at hget
      subst hget
      cases o0 <;> simp [haltResult] at hhalt <;>
        simp [connectFrom, attemptedCount, ← hhalt]
    | succ i =>
      rw [List.getElem?_cons_succ] at hget
      rw [List.take_succ_cons, List.all_cons, Bool.and_eq_true] at hpre
      cases o0 with
      | success c => simp [isNonHalting] at hpre
      | fatal e => simp [isNonHalting] at hpre
      | nullResult =>
        have h := ih acc i o r hget hhalt hpre.2
        exact ⟨h.1, by simp [attemptedCount, h.2]; omega⟩
      | recoverable m =>
        have h := ih (acc ++ [m]) i o r hget hhalt hpre.2
        exact ⟨h.1, by simp [attemptedCount, h.2]; omega⟩

/-- Claim C3: for every ordered outcome list, if the strategy at index `i` is
attempted (everything before it lets the loop continue) and succeeds with a
live connection, then `connect` returns that connection and exactly `i + 1`
strategies are attempted — no strategy at an index greater than `i` runs. -/
theorem c3_first_success_wins (outcomes : List StrategyOutcome) (i : Nat) (c : Nat)
    (hget : outcomes[i]? = some (.success c))
    (hpre : (outcomes.take i).all isNonHalting = true) :
    connect outcomes = .connected c ∧ attemptedCount outcomes = i + 1 :=
  connectFrom_halts outcomes [] i _ _ hget rfl hpre

/-- Witness for C3: with a recoverable failure followed by a success, the
second strategy's connection is returned and exactly two are attempted. -/
theorem c3_first_success_wins_witness :
    connect [.recoverable "token failed", .success 7] = .connected 7
    ∧ attemptedCount [StrategyOutcome.recoverable "token failed", .success 7] = 2 :=
  c3_first_success_wins [.recoverable "token failed", .success 7] 1 7
    (by decide) (by decide)

/-- Claim C4: if the strategy at index `i` is attempted and throws an error
that is not a recoverable strategy failure, negotiation halts: `connect`
propagates that error unchanged (it is not folded into the aggregate) and
exactly `i + 1` strategies are attempted.  Moreover a handshake error with
code `ENOTFOUND` (DNS/host-resolution failure) is always classified as such a
fatal error by `_connectWithConfig`, whatever hint text the strategy
supplied. -/
theorem c4_fatal_aborts (outcomes : List StrategyOutcome) (i : Nat) (e : DomainError)
    (hget : outcomes[i]? = some (.fatal e))
    (hpre : (outcomes.take i).all isNonHalting = true) :
    (connect outcomes = .raised e ∧ attemptedCount outcomes = i + 1)
    ∧ ∀ (hint : String) (mac : Bool) (th : String) (pt : Nat) (msg : String),
        msg ≠ authFailedTransportMessage →
        classifyHandshakeError hint mac ⟨msg, some "ENOTFOUND", th, pt⟩
          = .fatal (.generalError (enotfoundMessage th pt msg)) := by
  refine ⟨connectFrom_halts outcomes [] i _ _ hget rfl hpre, ?_⟩
  intro hint mac th pt msg hmsg
  simp [classifyHandshakeError, hmsg]

/-- Witness for C4: a fatal error at index 1 halts negotiation after two
attempts and propagates unchanged, and a concrete `ENOTFOUND` handshake error
is classified fatal. -/
theorem c4_fatal_aborts_witness :
    (connect [.recoverable "token failed", .fatal (.generalError "boom")]
        = .raised (.generalError "boom")
      ∧ attemptedCount
          [StrategyOutcome.recoverable "token failed",
           .fatal (DomainError.generalError "boom")] = 2)
    ∧ classifyHandshakeError "hint" false
        ⟨"getaddrinfo ENOTFOUND my.host", some "ENOTFOUND", "my.host", 22⟩
        = .fatal (.generalError (enotfoundMessage "my.host" 22 "getaddrinfo ENOTFOUND my.host")) := by
  have h := c4_fatal_aborts [.recoverable "token failed", .fatal (.generalError "boom")]
    1 (.generalError "boom") (by decide) (by decide)
  exact ⟨h.1, h.2 "hint" false "my.host" 22 "getaddrinfo ENOTFOUND my.host" (by decide)⟩

/-- Claim C5: when every strategy fails recoverably, `connect` rejects with a
single `AuthenticationFailed` whose message is the fixed header line followed
by every individual strategy's failure text, joined in attempt order with the
fixed separator, each failing strategy contributing exactly one entry. -/
theorem c5_aggregate_message (msgs : List String) :
    connect (msgs.map StrategyOutcome.recoverable)
      = .authFailed (String.intercalate strategiesSeparator (strategiesHeader :: msgs)) := by
  have key : ∀ (ms : List String) (acc : List String),
      connectFrom (ms.map StrategyOutcome.recoverable) acc
        = .authFailed
            (String.intercalate strategiesSeparator (strategiesHeader :: (acc ++ ms))) := by
    intro ms
    induction ms with
    | nil => intro acc; simp [connectFrom]
    | cons m rest ih =>
      intro acc
      rw [List.map_cons]
      show connectFrom (StrategyOutcome.recoverable m :: rest.map StrategyOutcome.recoverable)
          acc = _
      rw [connectFrom, ih (acc ++ [m])]
      simp
  simpa using key msgs []

/-- Helper: once the wrapped check has run, further calls change nothing. -/
theorem foldl_onceCall_called (vs : List String) :
    ∀ st : OnceState, st.called = true → vs.foldl onceCall st = st := by
  induction vs with
  | nil => intro st _; rfl
  | cons v rest ih =>
    intro st h
    rw [List.foldl_cons, show onceCall st v = st by simp [onceCall, h]]
    exact ih st h

/-- Claim C6 (corrected): as amended, the `R.once`-wrapped compatibility
check runs at most once for the process's lifetime — only the version carried
by the first successful decode is ever checked; every later decode triggers
no check, even when it carries a different version string. -/
theorem c6_check_runs_once (vs : List String) :
    checkedVersions vs = vs.take 1 := by
  cases vs with
  | nil => rfl
  | cons v rest =>
    show ((v :: rest).foldl onceCall ⟨false, []⟩).checked = (v :: rest).take 1
    rw [List.foldl_cons, show onceCall ⟨false, []⟩ v = ⟨true, [v]⟩ from rfl,
      foldl_onceCall_called rest ⟨true, [v]⟩ rfl]
    rfl

/-- Counterexample for C6 as stated: over two decodes carrying two different
version strings, only the first is checked, while the claim demands that each
distinct value be checked. -/
theorem c6_counterexample :
    checkedVersions ["13.0.0", "14.0.0"] = ["13.0.0"]
    ∧ checkedVersions ["13.0.0", "14.0.0"]
        ≠ distinctFirstOccurrences [] ["13.0.0", "14.0.0"] := by
  decide

/-- Helper: settling never touches the stdout accumulator. -/
theorem settleOnce_res (st : ExecState) (x : Settlement) :
    (settleOnce st x).res = st.res := by
  rw [settleOnce]; split <;> rfl

/-- Helper: settling never touches the stderr slot. -/
theorem settleOnce_err (st : ExecState) (x : Settlement) :
    (settleOnce st x).err = st.err := by
  rw [settleOnce]; split <;> rfl

/-- Helper: a settled promise stays settled at the same value across any
single stream event. -/
theorem streamStep_settled_some (v p : String) (st : ExecState) (e : StreamEvent)
    (s0 : Settlement) (h : st.settled = some s0) :
    (streamStep v p st e).settled = some s0 := by
  cases e with
  | stdoutData s => simpa [streamStep] using h
  | stderrData s => simpa [streamStep] using h
  | exitSignal c => simpa [streamStep] using h
  | graceTimer =>
    cases hpe : st.pendingExit <;> simp [streamStep, hpe, settleOnce, h]
  | closeSignal c =>
    by_cases hv : v = "_put" <;> simp [streamStep, settleOnce, hv, h]

/-- Helper: a settled promise stays settled at the same value across any
event sequence. -/
theorem runFrom_settled_some (v p : String) :
    ∀ (events : List StreamEvent) (st : ExecState) (s0 : Settlement),
      st.settled = some s0 → (runFrom v p st events).settled = some s0 := by
  intro events
  induction events with
  | nil => intro st s0 h; exact h
  | cons e rest ih =>
    intro st s0 h
    rw [runFrom, List.foldl_cons]
    exact ih (streamStep v p st e) s0 (streamStep_settled_some v p st e s0 h)

/-- Claim C2: the promise of `SSH.exec` settles exactly once in every
interleaving of the exit and close signals — once settled, any further events
(including the pending grace-timer settlement) are no-ops preserving the
settled value; a close signal arriving on an unsettled state settles it
immediately using the buffers accumulated at close time (with the `_put` echo
strip applied); and when close never fires, the grace timer settles using the
exit-captured code and whatever has accumulated by fire time. -/
theorem c2_settles_exactly_once (v p : String) (st : ExecState)
    (events : List StreamEvent) (s0 : Settlement) (code : Option Nat) :
    (st.settled = some s0 → (runFrom v p st events).settled = some s0)
    ∧ (st.settled = none →
        (streamStep v p st (.closeSignal code)).settled
          = some (settleValue code
              (if v = "_put" then removeFirst st.res p else st.res) st.err))
    ∧ (st.settled = none → st.pendingExit = some code →
        (streamStep v p st .graceTimer).settled
          = some (settleValue code st.res st.err)) := by
  refine ⟨fun h => runFrom_settled_some v p events st s0 h, fun h => ?_, fun h hpe => ?_⟩
  · by_cases hv : v = "_put" <;> simp [streamStep, settleOnce, hv, h]
  · simp [streamStep, hpe, settleOnce, h]

/-- Witness for C2: a settled promise survives a later grace timer and close
signal unchanged; a close with code 0 on an unsettled state resolves with the
cleaned buffer; a grace timer with a pending exit code 2 rejects with the
accumulated stderr. -/
theorem c2_settles_exactly_once_witness :
    (runFrom "_list" "x"
        { res := "a", err := none, pendingExit := none,
          settled := some (.resolved "r") }
        [.graceTimer, .closeSignal (some 1)]).settled = some (.resolved "r")
    ∧ (streamStep "_list" "x"
        { res := "a", err := some "e", pendingExit := some (some 2), settled := none }
        (.closeSignal (some 0))).settled = some (.resolved "a")
    ∧ (streamStep "_list" "x"
        { res := "a", err := some "e", pendingExit := some (some 2), settled := none }
        .graceTimer).settled = some (.rejected 2 (some "e")) := by
  have h1 := (c2_settles_exactly_once "_list" "x"
      ⟨"a", none, none, some (.resolved "r")⟩
      [.graceTimer, .closeSignal (some 1)] (.resolved "r") (some 1)).1 rfl
  have h2 := (c2_settles_exactly_once "_list" "x"
      ⟨"a", some "e", some (some 2), none⟩ [] (.resolved "r") (some 0)).2.1 rfl
  have h3 := (c2_settles_exactly_once "_list" "x"
      ⟨"a", some "e", some (some 2), none⟩ [] (.resolved "r") (some 2)).2.2 rfl rfl
  exact ⟨h1, h2.trans (by decide), h3.trans (by decide)⟩

/-- Claim C7 (corrected): as amended, an execution that ends with exit code 0
resolves with the accumulated stdout put through `clean`, which removes the
first newline character anywhere in the string rather than trimming trailing
newlines; the echo of the payload (first occurrence) is stripped for the
`_put` verb only, and only on the close-signal settlement path — the
grace-timer settlement applies no echo strip. -/
theorem c7_resolved_value (v p : String) (st : ExecState) (h : st.settled = none) :
    (streamStep v p st (.closeSignal (some 0))).settled
      = some (.resolved (clean (if v = "_put" then removeFirst st.res p else st.res)))
    ∧ (st.pendingExit = some (some 0) →
        (streamStep v p st .graceTimer).settled = some (.resolved (clean st.res))) := by
  constructor
  · by_cases hv : v = "_put" <;> simp [streamStep, settleOnce, settleValue, hv, h]
  · intro hpe
    simp [streamStep, hpe, settleOnce, settleValue, h]

/-- Witness for C7: for a non-bulk verb with stdout "x\ny", both settlement
paths resolve with "xy" — the first (non-trailing) newline is removed. -/
theorem c7_resolved_value_witness :
    (streamStep "_list" "p" ⟨"x\ny", none, some (some 0), none⟩
        (.closeSignal (some 0))).settled = some (.resolved "xy")
    ∧ (streamStep "_list" "p" ⟨"x\ny", none, some (some 0), none⟩
        .graceTimer).settled = some (.resolved "xy") := by
  have h := c7_resolved_value "_list" "p" ⟨"x\ny", none, some (some 0), none⟩ rfl
  exact ⟨h.1.trans (by decide), (h.2 rfl).trans (by decide)⟩

/-- Counterexample for C7 as stated: stdout "a\n\n" with exit code 0 resolves
to "a\n" (first newline removed), not to the claim's trailing-newline-trimmed
value "a". -/
theorem c7_counterexample :
    (runExec "_list" "" [.stdoutData "a\n\n", .closeSignal (some 0)]).settled
      = some (.resolved "a\n")
    ∧ (runExec "_list" "" [.stdoutData "a\n\n", .closeSignal (some 0)]).settled
      ≠ some (.resolved (resolvedClaimValue "_list" "" "a\n\n")) := by
  decide

/-- Helper: effect of one stream event on the stderr slot. -/
theorem streamStep_err (v p : String) (st : ExecState) :
    ∀ e : StreamEvent,
      (streamStep v p st e).err
        = match e with
          | .stderrData s => some s
          | _ => st.err
  | .stdoutData s => rfl
  | .stderrData s => rfl
  | .exitSignal c => rfl
  | .graceTimer => by
    cases hpe : st.pendingExit <;> simp [streamStep, hpe, settleOnce_err]
  | .closeSignal c => by
    by_cases hv : v = "_put" <;> simp [streamStep, hv, settleOnce_err]

/-- Helper: effect of one stream event on the stdout accumulator, for any
verb other than the bulk upload. -/
theorem streamStep_res (v p : String) (hv : v ≠ "_put") (st : ExecState) :
    ∀ e : StreamEvent,
      (streamStep v p st e).res
        = match e with
          | .stdoutData s => st.res ++ s
          | _ => st.res
  | .stdoutData s => rfl
  | .stderrData s => rfl
  | .exitSignal c => rfl
  | .graceTimer => by
    cases hpe : st.pendingExit <;> simp [streamStep, hpe, settleOnce_res]
  | .closeSignal c => by
    simp [streamStep, hv, settleOnce_res]

/-- Helper: over any event list the stderr slot ends as the last stderr
chunk (or its initial value) and the stdout accumulator ends as the initial
value followed by every stdout chunk in order. -/
theorem runFrom_err_res (v p : String) (hv : v ≠ "_put") :
    ∀ (events : List StreamEvent) (st : ExecState),
      (runFrom v p st events).err
        = events.foldl
            (fun a e => match e with | .stderrData s => some s | _ => a) st.err
      ∧ (runFrom v p st events).res
        = events.foldl
            (fun a e => match e with | .stdoutData s => a ++ s | _ => a) st.res := by
  intro events
  induction events with
  | nil => intro st; exact ⟨rfl, rfl⟩
  | cons e rest ih =>
    intro st
    rw [runFrom, List.foldl_cons, List.foldl_cons, List.foldl_cons]
    have h := ih (streamStep v p st e)
    rw [runFrom] at h
    refine ⟨h.1.trans ?_, h.2.trans ?_⟩
    · rw [streamStep_err v p st e]
    · rw [streamStep_res v p hv st e]

/-- Claim C8 (corrected): as amended, stdout and stderr chunks go to two
separate slots, and stdout chunks are appended in arrival order, but each
stderr chunk overwrites the stderr slot, so the text handed to the error
translator on a non-zero exit is the last stderr chunk delivered, not the
concatenation of all of them. -/
theorem c8_accumulators (v p : String) (events : List StreamEvent)
    (hv : v ≠ "_put") :
    (runExec v p events).err = lastStderr events
    ∧ (runExec v p events).res = stdoutConcat events :=
  runFrom_err_res v p hv events initExecState

/-- Witness for C8: with stderr chunks "a" then "b" and stdout chunk "x",
the run ends with stderr slot "b" and stdout "x". -/
theorem c8_accumulators_witness :
    (runExec "_list" "" [.stderrData "a", .stdoutData "x", .stderrData "b"]).err
      = some "b"
    ∧ (runExec "_list" "" [.stderrData "a", .stdoutData "x", .stderrData "b"]).res
      = "x" := by
  have h := c8_accumulators "_list" ""
    [.stderrData "a", .stdoutData "x", .stderrData "b"] (by decide)
  exact ⟨h.1.trans (by decide), h.2.trans (by decide)⟩

/-- Counterexample for C8 as stated: two stderr chunks "a", "b" followed by a
close with exit code 1 hand the translator only "b", not the concatenation
"ab" the claim demands. -/
theorem c8_counterexample :
    (runExec "_list" ""
        [.stderrData "a", .stderrData "b", .closeSignal (some 1)]).settled
      = some (.rejected 1 (some "b"))
    ∧ (runExec "_list" ""
        [.stderrData "a", .stderrData "b", .closeSignal (some 1)]).settled
      ≠ some (.rejected 1 (some (stderrConcatClaim
          [.stderrData "a", .stderrData "b", .closeSignal (some 1)]))) := by
  decide

/-- Claim C9: the fetch response is decoded as a plain `{headers, payload}`
structure (the `parsed` parameter is the result of that direct decode, not of
the packed-envelope codec); when the response text is not valid JSON, fetch
fails with `SSHInvalidResponse` whose payload is exactly the raw response
text, and on success the plain payload field is returned. -/
theorem c9_fetch_framing (str : String) (r : FetchParsed) :
    fetchHandle str none = .invalidResponse str
    ∧ fetchHandle str (some r) = .ok r.payload :=
  ⟨rfl, rfl⟩

end BitSSH
